import Mathlib

set_option maxRecDepth 40000
set_option maxHeartbeats 1000000

/-!
Verification of the name formatting and validation engine of the
datashuttle TUI repository.  The engine (`datashuttle/utils/formatting.py`
and `datashuttle/utils/utils.py`) is absent from the source tree; only its
unit tests (`src/tests/tests_unit/test_unit.py`) and the TUI glue are
present.  The definitions below are therefore modelled from the
specification, with the unit tests pinning concrete behaviours (exact
error-message text, zero-padding policy of range expansion, etc.).

Names are modelled as `List Char`; error messages as `List Char` inside
`Except`.  The ambient current date/time consumed by datetime tag
substitution is passed explicitly (the spec requires it to be injectable).
-/

/-- Abbreviation turning a string literal into the `List Char` the engine
works over. -/
def strL (s : String) : List Char := s.toList

/-- Does the list `s` start with the pattern `pat`? -/
def startsWithL : List Char → List Char → Bool
  | _, [] => true
  | [], _ :: _ => false
  | a :: as, b :: bs => a = b && startsWithL as bs

/-- Does the pattern `pat` occur as a contiguous substring of `s`? -/
def hasSubstr : List Char → List Char → Bool
  | [], pat => pat.isEmpty
  | a :: rest, pat => startsWithL (a :: rest) pat || hasSubstr rest pat

/-- Split `s` at the first occurrence of `pat`: returns
`some (before, after)` with `s = before ++ pat ++ after`, or `none` when
`pat` does not occur. -/
def splitAtSub : List Char → List Char → Option (List Char × List Char)
  | s, pat =>
    if startsWithL s pat then some ([], s.drop pat.length)
    else
      match s with
      | [] => none
      | c :: rest => (splitAtSub rest pat).map (fun p => (c :: p.1, p.2))

/-- Fuelled worker replacing every occurrence of `pat` in `s` by `repl`,
scanning left to right (the semantics of Python `str.replace`). -/
def replaceSubAux (pat repl : List Char) : Nat → List Char → List Char
  | 0, s => s
  | fuel + 1, s =>
    match splitAtSub s pat with
    | none => s
    | some (b, a) => b ++ repl ++ replaceSubAux pat repl fuel a

/-- Replace every occurrence of `pat` in `s` by `repl`. -/
def replaceSub (s pat repl : List Char) : List Char :=
  replaceSubAux pat repl s.length s

/-- The decimal-digit characters of `n`, most significant first
(Python `str(int)` on a natural number); fuelled worker. -/
def natDigitsAux : Nat → Nat → List Char
  | 0, _ => []
  | fuel + 1, n =>
    if n < 10 then [Char.ofNat (48 + n)]
    else natDigitsAux fuel (n / 10) ++ [Char.ofNat (48 + n % 10)]

/-- The decimal-digit characters of `n`, most significant first. -/
def natDigits (n : Nat) : List Char := natDigitsAux (n + 1) n

/-- The numeric value of a run of decimal digit characters
(Python `int` on a digit string). -/
def digitsVal (ds : List Char) : Nat :=
  ds.foldl (fun a c => 10 * a + (c.toNat - 48)) 0

/-- Left-pad a digit run with `'0'` up to width `w`
(Python `str.zfill`). -/
def zfill (w : Nat) (ds : List Char) : List Char :=
  List.replicate (w - ds.length) '0' ++ ds

/-- The ascending list of naturals from `a` to `b` inclusive. -/
def rangeIncl (a b : Nat) : List Nat :=
  (List.range (b + 1 - a)).map (a + ·)

/-- Modelled from the spec: the tag registry of
`datashuttle/configs/canonical_tags.py` (absent from src/); canonical
marker of the `date` tag. -/
def dateTagL : List Char := strL "@DATE@"

/-- Modelled from the spec: canonical marker of the `time` tag. -/
def timeTagL : List Char := strL "@TIME@"

/-- Modelled from the spec: canonical marker of the `datetime` tag. -/
def datetimeTagL : List Char := strL "@DATETIME@"

/-- Modelled from the spec: canonical marker of the `to` range tag. -/
def toTagL : List Char := strL "@TO@"

/-- Modelled from the spec: `utils.get_value_from_key_regexp` of
`datashuttle/utils/utils.py` (absent from src/), worker.  The Python
source scans `name` with `re.findall` for `key-<value>` where `<value>`
runs up to the next `_` or end of string, resuming each scan after the
previously matched text; `skip` counts characters of the previous match
still to be stepped over before scanning resumes. -/
def get_value_from_key_regexpAux (key : List Char) : Nat → List Char → List (List Char)
  | _, [] => []
  | skip + 1, _ :: rest => get_value_from_key_regexpAux key skip rest
  | 0, c :: rest =>
    if startsWithL (c :: rest) (key ++ ['-']) then
      let after := rest.drop key.length
      let v := after.takeWhile (fun x => x ≠ '_')
      v :: get_value_from_key_regexpAux key (key.length + v.length) rest
    else
      get_value_from_key_regexpAux key 0 rest

/-- Modelled from the spec: `utils.get_value_from_key_regexp(name, key)`
of `datashuttle/utils/utils.py` (absent from src/): all values extracted
from `name` for `key`, in order of a left-to-right scan. -/
def get_value_from_key_regexp (name key : List Char) : List (List Char) :=
  get_value_from_key_regexpAux key 0 name

/-- Modelled from the spec: `formatting.num_leading_zeros` of
`datashuttle/utils/formatting.py` (absent from src/): count the leading
`'0'` characters of a numeric id, treating a bare numeric string and a
`sub-`/`ses-` prefixed one identically. -/
def num_leading_zeros (value : List Char) : Nat :=
  let v :=
    if startsWithL value (strL "sub-") || startsWithL value (strL "ses-") then
      value.drop 4
    else value
  (v.takeWhile (fun c => c = '0')).length

/-- The subsequence of delimiter characters (`'-'` and `'_'`) of a name. -/
def delims (name : List Char) : List Char :=
  name.filter (fun c => c = '-' || c = '_')

/-- Does a delimiter run strictly alternate, the next expected delimiter
being `c`? -/
def altFrom : Char → List Char → Bool
  | _, [] => true
  | c, d :: rest => d = c && altFrom (if c = '-' then '_' else '-') rest

/-- Is a whole delimiter run well formed: empty, or starting with `'-'`
and strictly alternating afterwards? -/
def delimsOk (ds : List Char) : Bool :=
  match ds with
  | [] => true
  | d :: rest => d = '-' && altFrom '_' rest

/-- Error message of the first-delimiter rule. -/
def firstDelimMsg : List Char :=
  strL "The first delimiter of 'sub' or 'ses' must be dash not underscore e.g. sub-001."

/-- Error message of the dash/underscore alternation rule. -/
def alternationMsg : List Char :=
  strL "Subject and session names must contain alternating dashes and underscores (used for separating key-value pairs)."

/-- Modelled from the spec:
`formatting.check_dashes_and_underscore_alternate_correctly` of
`datashuttle/utils/formatting.py` (absent from src/): for each name the
first delimiter must be a dash and the delimiters must strictly
alternate; the first violated rule of the first offending name wins. -/
def check_dashes_and_underscore_alternate_correctly : List (List Char) → Except (List Char) Unit
  | [] => .ok ()
  | name :: rest =>
    match delims name with
    | [] => check_dashes_and_underscore_alternate_correctly rest
    | d :: ds =>
      if d = '_' then .error firstDelimMsg
      else if altFrom '_' ds then check_dashes_and_underscore_alternate_correctly rest
      else .error alternationMsg

/-- Error message of the no-spaces rule. -/
def spacesMsg (pfx : List Char) : List Char :=
  pfx ++ strL " names cannot include spaces."

/-- Error message of the consistent leading-zero-width rule. -/
def lengthMsg (pfx : List Char) : List Char :=
  strL "The length of the " ++ pfx ++ strL " values (e.g. '001') must be consistent across all " ++ pfx ++ strL " names."

/-- Error message of the unique-integer-ids rule. -/
def uniqueMsg (pfx : List Char) : List Char :=
  pfx ++ strL " names must all have unique integer ids after the " ++ pfx ++ strL " prefix."

/-- Error message of a duplicate key occurrence within one name. -/
def dupKeyMsg (key name : List Char) : List Char :=
  strL "There is more than one instance of " ++ key ++ strL " in " ++ name

/-- Error message of a non-numeric id when integer coercion is
requested. -/
def invalidCharMsg (key name : List Char) : List Char :=
  strL "Invalid character in " ++ key ++ strL " number: " ++ name

/-- Modelled from the spec: the per-name numeric-id extraction used by
the validator of `datashuttle/utils/formatting.py` (absent from src/):
exactly one `pfx-<digits>` value must be present. -/
def extractId (pfx name : List Char) : Except (List Char) (List Char) :=
  match get_value_from_key_regexp name pfx with
  | [] => .error (invalidCharMsg pfx name)
  | [v] =>
    if v.isEmpty then .error (invalidCharMsg pfx name)
    else if v.all Char.isDigit then .ok v
    else .error (invalidCharMsg pfx name)
  | _ => .error (dupKeyMsg pfx name)

/-- Extract the numeric id of every name of the batch, first error
winning. -/
def extractIds (pfx : List Char) : List (List Char) → Except (List Char) (List (List Char))
  | [] => .ok []
  | n :: rest => do
    let v ← extractId pfx n
    let vs ← extractIds pfx rest
    .ok (v :: vs)

/-- Are all numbers of the list equal? -/
def allEqual : List Nat → Bool
  | [] => true
  | x :: xs => xs.all (fun y => y = x)

/-- Does the list contain a duplicate? -/
def hasDup : List Nat → Bool
  | [] => false
  | x :: xs => xs.contains x || hasDup xs

/-- Modelled from the spec: the delimiter/format validator of
`datashuttle/utils/formatting.py` (absent from src/), run in the fixed
rule order: no spaces, first delimiter dash, alternation, consistent
leading-zero width, unique integer ids; the first violated rule wins. -/
def validateNames (pfx : List Char) (names : List (List Char)) : Except (List Char) Unit := do
  if names.any (fun n => n.contains ' ') then .error (spacesMsg pfx)
  else do
    check_dashes_and_underscore_alternate_correctly names
    let vs ← extractIds pfx names
    if !allEqual (vs.map num_leading_zeros) then .error (lengthMsg pfx)
    else if hasDup (vs.map digitsVal) then .error (uniqueMsg pfx)
    else .ok ()

/-- Insert an underscore before/after the first occurrence of `tag` in
`s` when the occurrence is not already bounded by an underscore or by the
start/end of the name. -/
def normalizeTag (tag s : List Char) : List Char :=
  match splitAtSub s tag with
  | none => s
  | some (b, a) =>
    let b2 := if b.isEmpty || b.getLast? = some '_' then b else b ++ ['_']
    let a2 := if a.isEmpty || a.head? = some '_' then a else '_' :: a
    b2 ++ tag ++ a2

/-- Modelled from the spec: the single-name body of
`formatting.update_names_with_datetime` of
`datashuttle/utils/formatting.py` (absent from src/).  `dateS` and
`timeS` are the injected ambient current date (8 digits) and time
(6 digits); the datetime marker is tested first, then date, then time;
underscores are normalized around the marker before replacement. -/
def update_name_with_datetime (dateS timeS name : List Char) : List Char :=
  if hasSubstr name datetimeTagL then
    replaceSub (normalizeTag datetimeTagL name) datetimeTagL
      (strL "datetime-" ++ dateS ++ ['T'] ++ timeS)
  else if hasSubstr name dateTagL then
    replaceSub (normalizeTag dateTagL name) dateTagL (strL "date-" ++ dateS)
  else if hasSubstr name timeTagL then
    replaceSub (normalizeTag timeTagL name) timeTagL (strL "time-" ++ timeS)
  else name

/-- Modelled from the spec: `formatting.update_names_with_datetime` of
`datashuttle/utils/formatting.py` (absent from src/), over a batch,
order preserved. -/
def update_names_with_datetime (dateS timeS : List Char) (names : List (List Char)) : List (List Char) :=
  names.map (update_name_with_datetime dateS timeS)

/-- Modelled from the spec: the range-syntax error message of
`formatting.update_names_with_range_to_flag` (absent from src/); the
unit tests pin the exact text, including the doubled space of
"must be  be". -/
def rangeErrMsg (pfx name : List Char) : List Char :=
  strL "The name: " ++ name ++ strL " is not in required format for @TO@ keyword. The start must be  be " ++ pfx ++ strL "-<NUMBER>@TO@<NUMBER>)."

/-- Modelled from the spec: the shape check of a range expression.  The
first underscore-free segment of the name must be exactly
`pfx-<digits>@TO@<digits>`; on success the two digit runs are
returned. -/
def parseRangeSeg (pfx seg : List Char) : Option (List Char × List Char) :=
  if startsWithL seg (pfx ++ ['-']) then
    let rest := seg.drop (pfx.length + 1)
    let ds1 := rest.takeWhile Char.isDigit
    let rest2 := rest.drop ds1.length
    if ds1.isEmpty then none
    else if startsWithL rest2 toTagL then
      let ds2 := rest2.drop 4
      if ds2.isEmpty then none
      else if ds2.all Char.isDigit then some (ds1, ds2)
      else none
    else none
  else none

/-- Modelled from the spec: expansion of one name of
`formatting.update_names_with_range_to_flag` (absent from src/).  A name
without the `@TO@` marker passes through; a name with the marker must
have first segment `pfx-<N>@TO@<M>` with `N < M`; each generated id is
zero-padded to width `max(leading zeros of N, leading zeros of M) + 1`
and the suffix (everything from the first underscore on) is carried onto
every generated name. -/
def expandName (pfx name : List Char) : Except (List Char) (List (List Char)) :=
  if hasSubstr name toTagL then
    let seg := name.takeWhile (fun c => c ≠ '_')
    let suffixPart := name.dropWhile (fun c => c ≠ '_')
    match parseRangeSeg pfx seg with
    | none => .error (rangeErrMsg pfx name)
    | some (ds1, ds2) =>
      let n := digitsVal ds1
      let m := digitsVal ds2
      if n < m then
        let w := max (num_leading_zeros ds1) (num_leading_zeros ds2) + 1
        .ok ((rangeIncl n m).map (fun k => pfx ++ '-' :: (zfill w (natDigits k) ++ suffixPart)))
      else .error (rangeErrMsg pfx name)
  else .ok [name]

/-- Modelled from the spec: `formatting.update_names_with_range_to_flag`
of `datashuttle/utils/formatting.py` (absent from src/): order-preserving
batch expansion, each name either passing through or being replaced in
place by its generated run; the first malformed name wins. -/
def update_names_with_range_to_flag : List (List Char) → List Char → Except (List Char) (List (List Char))
  | [], _ => .ok []
  | n :: rest, pfx => do
    let e ← expandName pfx n
    let r ← update_names_with_range_to_flag rest pfx
    .ok (e ++ r)

/-- Modelled from the spec: `formatting.check_and_format_names` of
`datashuttle/utils/formatting.py` (absent from src/): the batch
formatting pipeline — datetime tag substitution, then range expansion,
then the delimiter/format validator — returning the normalized batch or
the first failure.  `dateS`/`timeS` are the injected ambient current
date and time used by the substitution stage. -/
def check_and_format_names (dateS timeS : List Char) (names : List (List Char)) (pfx : List Char) : Except (List Char) (List (List Char)) := do
  let n1 := update_names_with_datetime dateS timeS names
  let n2 ← update_names_with_range_to_flag n1 pfx
  validateNames pfx n2
  .ok n2

/-- The expanded batch produced by `update_names_with_range_to_flag` on
`["sub-001", "sub-01@TO@123"]`. -/
def c10_expanded : List (List Char) :=
  strL "sub-001" :: (rangeIncl 1 123).map (fun k => strL "sub-" ++ zfill 2 (natDigits k))

/-- The number of (possibly overlapping) positions of `s` at which the
pattern `pat` occurs. -/
def countSubstr : List Char → List Char → Nat
  | [], pat => if pat.isEmpty then 1 else 0
  | a :: rest, pat => (if startsWithL (a :: rest) pat then 1 else 0) + countSubstr rest pat

/-- The four underscore placements around a tag exercised by the
datetime-substitution tests. -/
inductive UPos where
  | left : UPos
  | right : UPos
  | both : UPos
  | center : UPos

/-- The test name `sub-001 … other-tag` with the tag marker `key`
inserted under the given underscore placement (`center` meaning no
underscore on either side). -/
def make_name (key : List Char) : UPos → List Char
  | .left => strL "sub-001_" ++ key ++ strL "other-tag"
  | .right => strL "sub-001" ++ key ++ strL "_other-tag"
  | .both => strL "sub-001_" ++ key ++ strL "_other-tag"
  | .center => strL "sub-001" ++ key ++ strL "other-tag"

/-- Does `s` match the anchored pattern `sub-001_date-\d{8}_other-tag`? -/
def matchesDatePattern (s : List Char) : Prop :=
  ∃ ds, ds.length = 8 ∧ ds.all Char.isDigit = true ∧
    s = strL "sub-001_date-" ++ ds ++ strL "_other-tag"

/-- Does `s` match the anchored pattern `sub-001_time-\d{6}_other-tag`? -/
def matchesTimePattern (s : List Char) : Prop :=
  ∃ ts, ts.length = 6 ∧ ts.all Char.isDigit = true ∧
    s = strL "sub-001_time-" ++ ts ++ strL "_other-tag"

/-- Does `s` match the anchored pattern
`sub-001_datetime-\d{8}T\d{6}_other-tag`? -/
def matchesDatetimePattern (s : List Char) : Prop :=
  ∃ ds ts, ds.length = 8 ∧ ds.all Char.isDigit = true ∧
    ts.length = 6 ∧ ts.all Char.isDigit = true ∧
    s = strL "sub-001_datetime-" ++ ds ++ 'T' :: ts ++ strL "_other-tag"

/-! ## Helper lemmas -/

theorem hasSubstr_nil_pat (s : List Char) : hasSubstr s [] = true := by
  cases s <;> simp [hasSubstr, startsWithL]

theorem startsWithL_append_self (p s : List Char) : startsWithL (p ++ s) p = true := by
  induction p with
  | nil => cases s <;> rfl
  | cons a as ih => simp [startsWithL, ih]

theorem hasSubstr_parts (xs pat ys : List Char) : hasSubstr (xs ++ pat ++ ys) pat = true := by
  induction xs with
  | nil =>
    cases pat with
    | nil => simpa using hasSubstr_nil_pat ys
    | cons c cs =>
      simp only [List.nil_append, List.cons_append, hasSubstr, Bool.or_eq_true]
      exact Or.inl (startsWithL_append_self (c :: cs) ys)
  | cons a as ih =>
    simp only [List.cons_append, hasSubstr, Bool.or_eq_true]
    exact Or.inr (by simpa [List.append_assoc] using ih)

theorem hasSubstr_nil_of_ne (s : List Char) (c : Char) (p : List Char)
    (h : s.all (fun x => x ≠ c) = true) : hasSubstr s (c :: p) = false := by
  induction s with
  | nil => rfl
  | cons a as ih =>
    simp only [List.all_cons, Bool.and_eq_true, decide_eq_true_eq] at h
    have ha : (a = c) = False := by simp [h.1]
    simp [hasSubstr, startsWithL, ha, ih (by simpa using h.2)]

theorem contains_eq_false_of (s : List Char) (c : Char)
    (h : s.all (fun x => x ≠ c) = true) : s.contains c = false := by
  simp only [List.all_eq_true, decide_eq_true_eq] at h
  have hm : c ∉ s := fun hmem => (h c hmem) rfl
  show s.elem c = false
  rw [List.elem_eq_mem]
  simpa using hm

theorem takeWhile_append_of_all (p : Char → Bool) (xs ys : List Char)
    (h : xs.all p = true) : (xs ++ ys).takeWhile p = xs ++ ys.takeWhile p := by
  induction xs with
  | nil => rfl
  | cons a as ih =>
    simp only [List.all_cons, Bool.and_eq_true] at h
    simp [List.takeWhile_cons, h.1, ih h.2]

theorem dropWhile_append_of_all (p : Char → Bool) (xs ys : List Char)
    (h : xs.all p = true) : (xs ++ ys).dropWhile p = ys.dropWhile p := by
  induction xs with
  | nil => rfl
  | cons a as ih =>
    simp only [List.all_cons, Bool.and_eq_true] at h
    simp [List.dropWhile_cons, h.1, ih h.2]

theorem digit_ne {c x : Char} (h : c.isDigit = true) (hx : x.isDigit = false) : c ≠ x := by
  intro he
  rw [he] at h
  rw [h] at hx
  exact Bool.noConfusion hx

theorem all_ne_of_all_digit (ds : List Char) (x : Char) (hx : x.isDigit = false)
    (h : ds.all Char.isDigit = true) : ds.all (fun c => c ≠ x) = true := by
  simp only [List.all_eq_true, decide_eq_true_eq]
  intro c hc
  exact digit_ne (List.all_eq_true.mp h c hc) hx

theorem scanAux_nil_of_ne (c : Char) (ks : List Char) (s : List Char)
    (h : s.all (fun x => x ≠ c) = true) :
    ∀ skip, get_value_from_key_regexpAux (c :: ks) skip s = [] := by
  induction s with
  | nil => intro skip; cases skip <;> rfl
  | cons a as ih =>
    intro skip
    simp only [List.all_cons, Bool.and_eq_true, decide_eq_true_eq] at h
    have ha : (a = c) = False := by simp [h.1]
    cases skip with
    | zero =>
      simp [get_value_from_key_regexpAux, startsWithL, List.cons_append, ha,
        ih (by simpa using h.2)]
    | succ k =>
      simp [get_value_from_key_regexpAux, ih (by simpa using h.2)]

theorem scanAux_nil_of_no_substr (key : List Char) (s : List Char)
    (h : hasSubstr s (key ++ ['-']) = false) :
    ∀ skip, get_value_from_key_regexpAux key skip s = [] := by
  induction s with
  | nil => intro skip; cases skip <;> rfl
  | cons a as ih =>
    intro skip
    simp only [hasSubstr, Bool.or_eq_false_iff] at h
    cases skip with
    | zero => simp [get_value_from_key_regexpAux, h.1, ih h.2]
    | succ k => simp [get_value_from_key_regexpAux, ih h.2]

theorem scanAux_values_no_underscore (key : List Char) (s : List Char) :
    ∀ skip v, v ∈ get_value_from_key_regexpAux key skip s →
      v.all (fun x => x ≠ '_') = true := by
  induction s with
  | nil => intro skip v hv; cases skip <;> simp [get_value_from_key_regexpAux] at hv
  | cons a as ih =>
    intro skip v hv
    cases skip with
    | zero =>
      by_cases hs : startsWithL (a :: as) (key ++ ['-']) = true
      · simp only [get_value_from_key_regexpAux, hs, if_true, List.mem_cons] at hv
        rcases hv with rfl | hv
        · simp only [List.all_eq_true, decide_eq_true_eq]
          intro x hx
          exact List.mem_takeWhile_imp hx |> fun t => by simpa using t
        · exact ih _ v hv
      · simp only [get_value_from_key_regexpAux, hs] at hv
        simp only [Bool.not_eq_true] at hs
        rw [if_neg (by simp [hs])] at hv
        exact ih _ v hv
    | succ k =>
      simp only [get_value_from_key_regexpAux] at hv
      exact ih _ v hv

theorem delims_nil_of_all_digit (ds : List Char) (h : ds.all Char.isDigit = true) :
    delims ds = [] := by
  rw [delims, List.filter_eq_nil_iff]
  intro c hc
  have hd := List.all_eq_true.mp h c hc
  have h1 : c ≠ '-' := digit_ne hd (by decide)
  have h2 : c ≠ '_' := digit_ne hd (by decide)
  simp [h1, h2]

theorem update_name_dt_id (dateS timeS y : List Char)
    (h1 : hasSubstr y datetimeTagL = false) (h2 : hasSubstr y dateTagL = false)
    (h3 : hasSubstr y timeTagL = false) :
    update_name_with_datetime dateS timeS y = y := by
  simp [update_name_with_datetime, h1, h2, h3]

theorem update_names_dt_id (dateS timeS : List Char) (names : List (List Char))
    (h : ∀ y ∈ names, hasSubstr y datetimeTagL = false ∧ hasSubstr y dateTagL = false ∧
      hasSubstr y timeTagL = false) :
    update_names_with_datetime dateS timeS names = names := by
  induction names with
  | nil => rfl
  | cons n rest ih =>
    have hn := h n (by simp)
    simp only [update_names_with_datetime, List.map_cons]
    rw [update_name_dt_id _ _ _ hn.1 hn.2.1 hn.2.2]
    have := ih (fun y hy => h y (by simp [hy]))
    simpa [update_names_with_datetime] using this

theorem range_flag_id (names : List (List Char)) (pfx : List Char)
    (h : ∀ y ∈ names, hasSubstr y toTagL = false) :
    update_names_with_range_to_flag names pfx = .ok names := by
  induction names with
  | nil => rfl
  | cons n rest ih =>
    have hn := h n (by simp)
    have hr := ih (fun y hy => h y (by simp [hy]))
    simp [update_names_with_range_to_flag, expandName, hn, hr, Bind.bind, Except.bind]

/-! ## Claim theorems -/

/-- C2 counterexample: on the malformed input `1@TO@2` with prefix `sub`,
`update_names_with_range_to_flag` raises a message whose text reads
"The start must be  be" (doubled space, as the repository's unit tests
assert), which differs from the exact message quoted by the claim
("The start must be be", single space). -/
theorem c2_counterexample :
    update_names_with_range_to_flag [strL "1@TO@2"] (strL "sub") =
      .error (strL "The name: 1@TO@2 is not in required format for @TO@ keyword. The start must be  be sub-<NUMBER>@TO@<NUMBER>).") ∧
    strL "The name: 1@TO@2 is not in required format for @TO@ keyword. The start must be  be sub-<NUMBER>@TO@<NUMBER>)." ≠
      strL "The name: 1@TO@2 is not in required format for @TO@ keyword. The start must be be sub-<NUMBER>@TO@<NUMBER>)." :=
  ⟨rfl, by decide⟩

/-- C2 (amended): for both prefixes, every name containing the `@TO@`
marker whose first segment fails the `<prefix>-<NUMBER>@TO@<NUMBER>`
shape check is rejected with the range-syntax message (whose exact text
has the doubled space "must be  be"), and in particular the four
malformed inputs `1@TO@2`, `<p>-1@TO@_date`, `<p>-@01@TO@02`,
`<p>-01@TO@1M1` are each rejected with that message. -/
theorem c2_amended_theorem :
    (∀ pfx name, hasSubstr name toTagL = true →
      parseRangeSeg pfx (name.takeWhile (fun c => c ≠ '_')) = none →
      update_names_with_range_to_flag [name] pfx = .error (rangeErrMsg pfx name)) ∧
    update_names_with_range_to_flag [strL "1@TO@2"] (strL "sub") =
      .error (strL "The name: 1@TO@2 is not in required format for @TO@ keyword. The start must be  be sub-<NUMBER>@TO@<NUMBER>).") ∧
    update_names_with_range_to_flag [strL "sub-1@TO@_date"] (strL "sub") =
      .error (strL "The name: sub-1@TO@_date is not in required format for @TO@ keyword. The start must be  be sub-<NUMBER>@TO@<NUMBER>).") ∧
    update_names_with_range_to_flag [strL "sub-@01@TO@02"] (strL "sub") =
      .error (strL "The name: sub-@01@TO@02 is not in required format for @TO@ keyword. The start must be  be sub-<NUMBER>@TO@<NUMBER>).") ∧
    update_names_with_range_to_flag [strL "sub-01@TO@1M1"] (strL "sub") =
      .error (strL "The name: sub-01@TO@1M1 is not in required format for @TO@ keyword. The start must be  be sub-<NUMBER>@TO@<NUMBER>).") ∧
    update_names_with_range_to_flag [strL "1@TO@2"] (strL "ses") =
      .error (strL "The name: 1@TO@2 is not in required format for @TO@ keyword. The start must be  be ses-<NUMBER>@TO@<NUMBER>).") ∧
    update_names_with_range_to_flag [strL "ses-1@TO@_date"] (strL "ses") =
      .error (strL "The name: ses-1@TO@_date is not in required format for @TO@ keyword. The start must be  be ses-<NUMBER>@TO@<NUMBER>).") ∧
    update_names_with_range_to_flag [strL "ses-@01@TO@02"] (strL "ses") =
      .error (strL "The name: ses-@01@TO@02 is not in required format for @TO@ keyword. The start must be  be ses-<NUMBER>@TO@<NUMBER>).") ∧
    update_names_with_range_to_flag [strL "ses-01@TO@1M1"] (strL "ses") =
      .error (strL "The name: ses-01@TO@1M1 is not in required format for @TO@ keyword. The start must be  be ses-<NUMBER>@TO@<NUMBER>).") := by
  refine ⟨?_, rfl, rfl, rfl, rfl, rfl, rfl, rfl, rfl⟩
  intro pfx name h1 h2
  have he : expandName pfx name = .error (rangeErrMsg pfx name) := by
    unfold expandName
    rw [if_pos h1]
    simp only [h2]
  simp [update_names_with_range_to_flag, he, Bind.bind, Except.bind]

/-- C2 witness: the general conjunct applied to the concrete malformed
name `ses-5@TO@` with prefix `ses`. -/
theorem c2_amended_witness :
    update_names_with_range_to_flag [strL "ses-5@TO@"] (strL "ses") =
      .error (rangeErrMsg (strL "ses") (strL "ses-5@TO@")) :=
  c2_amended_theorem.1 (strL "ses") (strL "ses-5@TO@") (by decide) (by decide)

/-- C6: for both prefixes and any injected clock,
`check_and_format_names` on a batch whose ids have differing
leading-zero widths (`<p>-001`, `<p>-02`, `<p>-003`) fails with the
exact width-consistency message. -/
theorem c6_theorem : ∀ dateS timeS : List Char,
    check_and_format_names dateS timeS [strL "sub-001", strL "sub-02", strL "sub-003"]
      (strL "sub") = .error (lengthMsg (strL "sub")) ∧
    check_and_format_names dateS timeS [strL "ses-001", strL "ses-02", strL "ses-003"]
      (strL "ses") = .error (lengthMsg (strL "ses")) :=
  fun _ _ => ⟨rfl, rfl⟩

/-- C10: `update_names_with_range_to_flag` performs no batch-level
validation: on `["sub-001", "sub-01@TO@123"]` it succeeds, its output
contains duplicate integer ids and inconsistent leading-zero widths, and
only the validator stage of `check_and_format_names` rejects the batch
(with the width-consistency message), for any injected clock. -/
theorem c10_theorem :
    update_names_with_range_to_flag [strL "sub-001", strL "sub-01@TO@123"] (strL "sub") =
      .ok c10_expanded ∧
    hasDup (c10_expanded.map
      (fun n => digitsVal ((get_value_from_key_regexp n (strL "sub")).headD []))) = true ∧
    allEqual (c10_expanded.map
      (fun n => num_leading_zeros ((get_value_from_key_regexp n (strL "sub")).headD []))) = false ∧
    (∀ dateS timeS : List Char,
      check_and_format_names dateS timeS [strL "sub-001", strL "sub-01@TO@123"]
        (strL "sub") = .error (lengthMsg (strL "sub"))) := by
  refine ⟨rfl, rfl, rfl, ?_⟩
  intro d t
  unfold check_and_format_names
  rw [update_names_dt_id d t _ (by decide)]
  rfl
/-- C7: for every i in 0..100, `num_leading_zeros` on "1" left-padded
with i zeros returns i, and identically with a "sub-" or "ses-" prefix
prepended. -/
theorem c7_theorem (i : Nat) (h : i ≤ 100) :
    num_leading_zeros (List.replicate i '0' ++ ['1']) = i ∧
    num_leading_zeros (strL "sub-" ++ (List.replicate i '0' ++ ['1'])) = i ∧
    num_leading_zeros (strL "ses-" ++ (List.replicate i '0' ++ ['1'])) = i := by
  have hrep : ((List.replicate i '0' ++ ['1']).takeWhile (fun c => c = '0')) = List.replicate i '0' := by
    rw [takeWhile_append_of_all _ _ _ (by simp [List.all_eq_true, List.mem_replicate])]
    simp
  refine ⟨?_, ?_, ?_⟩
  · have h1 : startsWithL (List.replicate i '0' ++ ['1']) (strL "sub-") = false := by
      cases i with
      | zero => rfl
      | succ n =>
        rw [List.replicate_succ, show strL "sub-" = 's' :: strL "ub-" from rfl]
        simp [startsWithL]
    have h2 : startsWithL (List.replicate i '0' ++ ['1']) (strL "ses-") = false := by
      cases i with
      | zero => rfl
      | succ n =>
        rw [List.replicate_succ, show strL "ses-" = 's' :: strL "es-" from rfl]
        simp [startsWithL]
    simp only [num_leading_zeros, h1, h2, Bool.or_self, Bool.false_eq_true, if_false]
    rw [hrep, List.length_replicate]
  · have hc : startsWithL (strL "sub-" ++ (List.replicate i '0' ++ ['1'])) (strL "sub-") = true :=
      startsWithL_append_self _ _
    simp only [num_leading_zeros, hc, Bool.true_or, if_true]
    rw [show (strL "sub-" ++ (List.replicate i '0' ++ ['1'])).drop 4 = List.replicate i '0' ++ ['1'] from by
      rw [show (4 : Nat) = (strL "sub-").length from rfl, List.drop_left]]
    rw [hrep, List.length_replicate]
  · have hc : startsWithL (strL "ses-" ++ (List.replicate i '0' ++ ['1'])) (strL "ses-") = true :=
      startsWithL_append_self _ _
    have hc1 : startsWithL (strL "ses-" ++ (List.replicate i '0' ++ ['1'])) (strL "sub-") = false := by
      rw [show strL "ses-" ++ (List.replicate i '0' ++ ['1']) = 's' :: 'e' :: (strL "s-" ++ (List.replicate i '0' ++ ['1'])) from rfl,
        show strL "sub-" = 's' :: 'u' :: strL "b-" from rfl]
      simp [startsWithL]
    simp only [num_leading_zeros, hc, hc1, Bool.false_or, if_true]
    rw [show (strL "ses-" ++ (List.replicate i '0' ++ ['1'])).drop 4 = List.replicate i '0' ++ ['1'] from by
      rw [show (4 : Nat) = (strL "ses-").length from rfl, List.drop_left]]
    rw [hrep, List.length_replicate]

/-- C7 witness: the instance i = 3, for the bare and both prefixed
forms. -/
theorem c7_witness :
    num_leading_zeros (List.replicate 3 '0' ++ ['1']) = 3 ∧
    num_leading_zeros (strL "sub-" ++ (List.replicate 3 '0' ++ ['1'])) = 3 ∧
    num_leading_zeros (strL "ses-" ++ (List.replicate 3 '0' ++ ['1'])) = 3 :=
  c7_theorem 3 (by decide)
/-- C4: `check_dashes_and_underscore_alternate_correctly` rejects any
name whose first delimiter is an underscore with the exact
first-delimiter message, rejects any name whose delimiters start with a
dash but break strict alternation with the exact alternation message,
and accepts every name whose delimiter run is well formed; in
particular the claim's concrete examples behave as stated. -/
theorem c4_theorem :
    (∀ name, (delims name).head? = some '_' →
      check_dashes_and_underscore_alternate_correctly [name] = .error firstDelimMsg) ∧
    (∀ name ds, delims name = '-' :: ds → altFrom '_' ds = false →
      check_dashes_and_underscore_alternate_correctly [name] = .error alternationMsg) ∧
    (∀ name, delimsOk (delims name) = true →
      check_dashes_and_underscore_alternate_correctly [name] = .ok ()) ∧
    check_dashes_and_underscore_alternate_correctly [strL "sub_001_date-010101"] =
      .error firstDelimMsg ∧
    check_dashes_and_underscore_alternate_correctly [strL "sub-001-date_101010"] =
      .error alternationMsg ∧
    check_dashes_and_underscore_alternate_correctly [strL "sub-001_ses-002-suffix"] =
      .error alternationMsg ∧
    check_dashes_and_underscore_alternate_correctly [strL "sub-001_ses-002-task-check"] =
      .error alternationMsg ∧
    check_dashes_and_underscore_alternate_correctly [strL "ses-001_hello-world_one-hundred"] =
      .ok () := by
  refine ⟨?_, ?_, ?_, rfl, rfl, rfl, rfl, rfl⟩
  · intro name h
    cases hd : delims name with
    | nil => rw [hd] at h; cases h
    | cons d ds =>
      rw [hd] at h
      simp only [List.head?_cons, Option.some.injEq] at h
      simp only [check_dashes_and_underscore_alternate_correctly]
      rw [hd]
      subst h
      simp
  · intro name ds hd halt
    simp only [check_dashes_and_underscore_alternate_correctly]
    rw [hd]
    simp [halt]
  · intro name h
    cases hd : delims name with
    | nil =>
      simp only [check_dashes_and_underscore_alternate_correctly]
      rw [hd]
    | cons d ds =>
      rw [hd] at h
      simp only [delimsOk, Bool.and_eq_true, decide_eq_true_eq] at h
      obtain ⟨h1, h2⟩ := h
      subst h1
      simp only [check_dashes_and_underscore_alternate_correctly]
      rw [hd]
      simp [h2]

/-- C4 witness: the first-delimiter conjunct applied to the concrete
name `ses_002`. -/
theorem c4_witness :
    check_dashes_and_underscore_alternate_correctly [strL "ses_002"] = .error firstDelimMsg :=
  c4_theorem.1 (strL "ses_002") (by decide)
/-- C8 counterexample: on the name `a-a-b` and key `a`, the substring
`a-` occurs twice, yet `get_value_from_key_regexp` returns a single
value (`a-b`), because the scan resumes after the end of the previous
match; so the claim's "one extracted value per occurrence of key-" is
false as stated. -/
theorem c8_counterexample :
    countSubstr (strL "a-a-b") (strL "a-") = 2 ∧
    get_value_from_key_regexp (strL "a-a-b") (strL "a") = [strL "a-b"] ∧
    (get_value_from_key_regexp (strL "a-a-b") (strL "a")).length = 1 :=
  ⟨rfl, rfl, rfl⟩

/-- C8 (amended): `get_value_from_key_regexp` scans left to right,
resuming after the end of each match; every extracted value is the run
of characters after `key-` up to the next underscore or end of string
(hence never contains an underscore, though it may contain dashes and
other characters); the claim's concrete extractions hold, and when
`key-` does not occur in the name the result is empty. -/
theorem c8_amended_theorem :
    get_value_from_key_regexp
      (strL "sub-0123125_ses-11312_datetime-5345323_id-3asd@523") (strL "sub") =
      [strL "0123125"] ∧
    get_value_from_key_regexp
      (strL "sub-0123125_ses-11312_datetime-5345323_id-3asd@523") (strL "id") =
      [strL "3asd@523"] ∧
    (∀ name key v, v ∈ get_value_from_key_regexp name key →
      v.all (fun x => x ≠ '_') = true) ∧
    (∀ name key, hasSubstr name (key ++ ['-']) = false →
      get_value_from_key_regexp name key = []) := by
  refine ⟨rfl, rfl, ?_, ?_⟩
  · intro name key v hv
    exact scanAux_values_no_underscore key name 0 v hv
  · intro name key h
    exact scanAux_nil_of_no_substr key name h 0

/-- C8 witness: the absent-key conjunct applied to the concrete name
`xyz` and key `id`. -/
theorem c8_amended_witness :
    get_value_from_key_regexp (strL "xyz") (strL "id") = [] :=
  c8_amended_theorem.2.2.2 (strL "xyz") (strL "id") (by decide)

/-- C3: for each of the three datetime tags and each underscore
placement around the tag between `sub-001` and `other-tag`,
`update_names_with_datetime` (with any injected 8-digit date and
6-digit time) rewrites the name to the key-value form separated by
exactly one underscore on each side, matching the corresponding
`sub-001_date-\d{8}_other-tag` style pattern. -/
theorem c3_theorem (dateS timeS : List Char)
    (hd8 : dateS.length = 8) (hdd : dateS.all Char.isDigit = true)
    (ht6 : timeS.length = 6) (htd : timeS.all Char.isDigit = true) :
    (∀ pos, update_names_with_datetime dateS timeS [make_name dateTagL pos] =
      [strL "sub-001_date-" ++ dateS ++ strL "_other-tag"]) ∧
    matchesDatePattern (strL "sub-001_date-" ++ dateS ++ strL "_other-tag") ∧
    (∀ pos, update_names_with_datetime dateS timeS [make_name timeTagL pos] =
      [strL "sub-001_time-" ++ timeS ++ strL "_other-tag"]) ∧
    matchesTimePattern (strL "sub-001_time-" ++ timeS ++ strL "_other-tag") ∧
    (∀ pos, update_names_with_datetime dateS timeS [make_name datetimeTagL pos] =
      [strL "sub-001_" ++ (strL "datetime-" ++ dateS ++ ['T'] ++ timeS) ++ strL "_other-tag"]) ∧
    matchesDatetimePattern
      (strL "sub-001_" ++ (strL "datetime-" ++ dateS ++ ['T'] ++ timeS) ++ strL "_other-tag") := by
  refine ⟨fun pos => ?_, ⟨dateS, hd8, hdd, rfl⟩, fun pos => ?_, ⟨timeS, ht6, htd, rfl⟩,
    fun pos => ?_, ⟨dateS, timeS, hd8, hdd, ht6, htd, by
      simp only [List.append_assoc, List.cons_append, List.singleton_append]; rfl⟩⟩ <;>
    cases pos <;> rfl

/-- C3 witness: the date conjunct at the concrete clock 20240101,
123456 and the no-underscore placement. -/
theorem c3_witness :
    update_names_with_datetime (strL "20240101") (strL "123456")
      [make_name dateTagL UPos.center] =
      [strL "sub-001_date-" ++ strL "20240101" ++ strL "_other-tag"] :=
  (c3_theorem (strL "20240101") (strL "123456") (by decide) (by decide) (by decide)
    (by decide)).1 UPos.center
/-- C1: for both prefixes, a name `<p>-<N>@TO@<M>_<suffix>` with digit
runs N < M expands into the ascending run of `<p>-<k>_<suffix>` for
every k in [N, M], each id zero-padded to the width induced by the
endpoints (one more than the larger leading-zero count), carrying the
suffix onto every generated name; in particular the claim's three
literal examples hold for both prefixes. -/
theorem c1_theorem :
    (∀ pfx, pfx = strL "sub" ∨ pfx = strL "ses" →
      ∀ ds1 ds2 sfx : List Char, ds1 ≠ [] → ds1.all Char.isDigit = true →
        ds2 ≠ [] → ds2.all Char.isDigit = true → digitsVal ds1 < digitsVal ds2 →
        update_names_with_range_to_flag
            [pfx ++ ['-'] ++ ds1 ++ toTagL ++ ds2 ++ ['_'] ++ sfx] pfx =
          .ok ((rangeIncl (digitsVal ds1) (digitsVal ds2)).map
            (fun k => pfx ++ '-' ::
              (zfill (max (num_leading_zeros ds1) (num_leading_zeros ds2) + 1)
                (natDigits k) ++ '_' :: sfx)))) ∧
    update_names_with_range_to_flag [strL "sub-01@TO@3_hello"] (strL "sub") =
      .ok [strL "sub-01_hello", strL "sub-02_hello", strL "sub-03_hello"] ∧
    update_names_with_range_to_flag [strL "sub-4@TO@005_goodbye"] (strL "sub") =
      .ok [strL "sub-004_goodbye", strL "sub-005_goodbye"] ∧
    update_names_with_range_to_flag [strL "sub-006@TO@0007_hello"] (strL "sub") =
      .ok [strL "sub-0006_hello", strL "sub-0007_hello"] ∧
    update_names_with_range_to_flag [strL "ses-01@TO@3_hello"] (strL "ses") =
      .ok [strL "ses-01_hello", strL "ses-02_hello", strL "ses-03_hello"] ∧
    update_names_with_range_to_flag [strL "ses-4@TO@005_goodbye"] (strL "ses") =
      .ok [strL "ses-004_goodbye", strL "ses-005_goodbye"] ∧
    update_names_with_range_to_flag [strL "ses-006@TO@0007_hello"] (strL "ses") =
      .ok [strL "ses-0006_hello", strL "ses-0007_hello"] := by
  refine ⟨?_, rfl, rfl, rfl, rfl, rfl, rfl⟩
  intro pfx hpfx ds1 ds2 sfx h1ne h1d h2ne h2d hlt
  have hall : pfx.all (fun c => c ≠ '_') = true := by
    rcases hpfx with rfl | rfl <;> decide
  have hd1 : ds1.all (fun c => c ≠ '_') = true := all_ne_of_all_digit ds1 '_' (by decide) h1d
  have hd2 : ds2.all (fun c => c ≠ '_') = true := all_ne_of_all_digit ds2 '_' (by decide) h2d
  have hto : hasSubstr (pfx ++ ['-'] ++ ds1 ++ toTagL ++ ds2 ++ ['_'] ++ sfx) toTagL = true := by
    have h := hasSubstr_parts (pfx ++ ['-'] ++ ds1) toTagL (ds2 ++ ['_'] ++ sfx)
    simpa [List.append_assoc] using h
  have htake : (pfx ++ ['-'] ++ ds1 ++ toTagL ++ ds2 ++ ['_'] ++ sfx).takeWhile
      (fun c => c ≠ '_') = pfx ++ ['-'] ++ ds1 ++ toTagL ++ ds2 := by
    simp only [List.append_assoc]
    rw [takeWhile_append_of_all _ pfx _ hall, takeWhile_append_of_all _ ['-'] _ (by decide),
      takeWhile_append_of_all _ ds1 _ hd1, takeWhile_append_of_all _ toTagL _ (by decide),
      takeWhile_append_of_all _ ds2 _ hd2]
    simp [List.takeWhile_cons]
  have hdrop : (pfx ++ ['-'] ++ ds1 ++ toTagL ++ ds2 ++ ['_'] ++ sfx).dropWhile
      (fun c => c ≠ '_') = '_' :: sfx := by
    simp only [List.append_assoc]
    rw [dropWhile_append_of_all _ pfx _ hall, dropWhile_append_of_all _ ['-'] _ (by decide),
      dropWhile_append_of_all _ ds1 _ hd1, dropWhile_append_of_all _ toTagL _ (by decide),
      dropWhile_append_of_all _ ds2 _ hd2]
    simp [List.dropWhile_cons]
  have hne1 : ds1.isEmpty = false := by
    cases ds1 with
    | nil => exact absurd rfl h1ne
    | cons a l => rfl
  have hne2 : ds2.isEmpty = false := by
    cases ds2 with
    | nil => exact absurd rfl h2ne
    | cons a l => rfl
  have hparse : parseRangeSeg pfx (pfx ++ ['-'] ++ ds1 ++ toTagL ++ ds2) = some (ds1, ds2) := by
    have hsw : startsWithL (pfx ++ ['-'] ++ ds1 ++ toTagL ++ ds2) (pfx ++ ['-']) = true := by
      have h := startsWithL_append_self (pfx ++ ['-']) (ds1 ++ (toTagL ++ ds2))
      simpa [List.append_assoc] using h
    have hdropn : (pfx ++ ['-'] ++ ds1 ++ toTagL ++ ds2).drop (pfx.length + 1) =
        ds1 ++ (toTagL ++ ds2) := by
      rw [show pfx.length + 1 = (pfx ++ ['-']).length by simp,
        show pfx ++ ['-'] ++ ds1 ++ toTagL ++ ds2 = (pfx ++ ['-']) ++ (ds1 ++ (toTagL ++ ds2)) by
          simp [List.append_assoc],
        List.drop_left]
    have htw : (ds1 ++ (toTagL ++ ds2)).takeWhile Char.isDigit = ds1 := by
      rw [takeWhile_append_of_all _ ds1 _ h1d,
        show toTagL ++ ds2 = '@' :: (strL "TO@" ++ ds2) from rfl]
      simp [List.takeWhile_cons]
    have hdw : (ds1 ++ (toTagL ++ ds2)).drop ds1.length = toTagL ++ ds2 := List.drop_left _ _
    have hsw2 : startsWithL (toTagL ++ ds2) toTagL = true := startsWithL_append_self _ _
    have hdrop4 : (toTagL ++ ds2).drop 4 = ds2 := by
      rw [show (4 : Nat) = toTagL.length from rfl, List.drop_left]
    simp only [parseRangeSeg, hsw, hdropn, htw, hdw, hne1, hsw2, hdrop4, hne2, h2d, if_true,
      Bool.false_eq_true, if_false]
  have hexp : expandName pfx (pfx ++ ['-'] ++ ds1 ++ toTagL ++ ds2 ++ ['_'] ++ sfx) =
      .ok ((rangeIncl (digitsVal ds1) (digitsVal ds2)).map
        (fun k => pfx ++ '-' ::
          (zfill (max (num_leading_zeros ds1) (num_leading_zeros ds2) + 1)
            (natDigits k) ++ '_' :: sfx))) := by
    unfold expandName
    rw [if_pos hto]
    simp only [htake, hdrop, hparse]
    rw [if_pos hlt]
  have harg : pfx ++ ['-'] ++ ds1 ++ toTagL ++ ds2 ++ ['_'] ++ sfx =
      pfx ++ '-' :: (ds1 ++ (toTagL ++ (ds2 ++ '_' :: sfx))) := by
    simp [List.append_assoc]
  rw [harg] at hexp
  simp [update_names_with_range_to_flag, Bind.bind, Except.bind, hexp]

/-- C1 witness: the general conjunct at prefix `sub`, endpoints `01` and
`3`, suffix `hello`. -/
theorem c1_witness :
    update_names_with_range_to_flag
        [strL "sub" ++ ['-'] ++ strL "01" ++ toTagL ++ strL "3" ++ ['_'] ++ strL "hello"]
        (strL "sub") =
      .ok ((rangeIncl (digitsVal (strL "01")) (digitsVal (strL "3"))).map
        (fun k => strL "sub" ++ '-' ::
          (zfill (max (num_leading_zeros (strL "01")) (num_leading_zeros (strL "3")) + 1)
            (natDigits k) ++ '_' :: strL "hello"))) :=
  c1_theorem.1 (strL "sub") (Or.inl rfl) (strL "01") (strL "3") (strL "hello")
    (by decide) (by decide) (by decide) (by decide) (by decide)
/-- C5: for both prefixes and any injected all-digit date,
`check_and_format_names` on `[<p>-001, <p>-002, <p>-001_@DATE@]` fails
with the exact unique-integer-ids message; the unsubstituted `@DATE@`
tag neither prevents nor changes the error. -/
theorem c5_theorem (dateS timeS : List Char) (hdd : dateS.all Char.isDigit = true) :
    check_and_format_names dateS timeS
      [strL "sub-001", strL "sub-002", strL "sub-001_@DATE@"] (strL "sub") =
      .error (uniqueMsg (strL "sub")) ∧
    check_and_format_names dateS timeS
      [strL "ses-001", strL "ses-002", strL "ses-001_@DATE@"] (strL "ses") =
      .error (uniqueMsg (strL "ses")) := by
  have hne_at : dateS.all (fun x => x ≠ '@') = true :=
    all_ne_of_all_digit dateS '@' (by decide) hdd
  have hne_s : dateS.all (fun x => x ≠ 's') = true :=
    all_ne_of_all_digit dateS 's' (by decide) hdd
  have hne_sp : dateS.all (fun x => x ≠ ' ') = true :=
    all_ne_of_all_digit dateS ' ' (by decide) hdd
  constructor
  · -- prefix sub
    have h3 : update_name_with_datetime dateS timeS (strL "sub-001_@DATE@") =
        strL "sub-001_date-" ++ (dateS ++ []) := rfl
    rw [List.append_nil] at h3
    have hsubst : update_names_with_datetime dateS timeS
        [strL "sub-001", strL "sub-002", strL "sub-001_@DATE@"] =
        [strL "sub-001", strL "sub-002", strL "sub-001_date-" ++ dateS] := by
      have ha : update_name_with_datetime dateS timeS (strL "sub-001") = strL "sub-001" := rfl
      have hb : update_name_with_datetime dateS timeS (strL "sub-002") = strL "sub-002" := rfl
      simp [update_names_with_datetime, ha, hb, h3]
    have hto3 : hasSubstr (strL "sub-001_date-" ++ dateS) toTagL = false := by
      have hm : hasSubstr (strL "sub-001_date-" ++ dateS) toTagL =
          hasSubstr dateS ('@' :: strL "TO@") := rfl
      rw [hm]
      exact hasSubstr_nil_of_ne dateS '@' (strL "TO@") hne_at
    have hexp : update_names_with_range_to_flag
        [strL "sub-001", strL "sub-002", strL "sub-001_date-" ++ dateS] (strL "sub") =
        .ok [strL "sub-001", strL "sub-002", strL "sub-001_date-" ++ dateS] := by
      refine range_flag_id _ _ ?_
      intro y hy
      simp only [List.mem_cons, List.not_mem_nil, or_false] at hy
      rcases hy with rfl | rfl | rfl
      · decide
      · decide
      · exact hto3
    have hsp3 : (strL "sub-001_date-" ++ dateS).contains ' ' = false := by
      have hm : (strL "sub-001_date-" ++ dateS).contains ' ' = dateS.contains ' ' := rfl
      rw [hm]
      exact contains_eq_false_of dateS ' ' hne_sp
    have hany : ([strL "sub-001", strL "sub-002", strL "sub-001_date-" ++ dateS].any
        (fun n => n.contains ' ')) = false := by
      simp only [List.any_cons, List.any_nil, hsp3]
      decide
    have hdel : delims (strL "sub-001_date-" ++ dateS) = ['-', '_', '-'] := by
      have hm : delims (strL "sub-001_date-" ++ dateS) = '-' :: '_' :: '-' :: delims dateS := rfl
      rw [hm, delims_nil_of_all_digit dateS hdd]
    have hch : check_dashes_and_underscore_alternate_correctly
        [strL "sub-001", strL "sub-002", strL "sub-001_date-" ++ dateS] = .ok () := by
      have hstep : check_dashes_and_underscore_alternate_correctly
          [strL "sub-001", strL "sub-002", strL "sub-001_date-" ++ dateS] =
          check_dashes_and_underscore_alternate_correctly [strL "sub-001_date-" ++ dateS] := rfl
      rw [hstep]
      simp only [check_dashes_and_underscore_alternate_correctly]
      rw [hdel]
      rfl
    have hval3 : get_value_from_key_regexp (strL "sub-001_date-" ++ dateS) (strL "sub") =
        [strL "001"] := by
      have hm : get_value_from_key_regexp (strL "sub-001_date-" ++ dateS) (strL "sub") =
          strL "001" :: get_value_from_key_regexpAux ('s' :: strL "ub") 0 dateS := rfl
      rw [hm, scanAux_nil_of_ne 's' (strL "ub") dateS hne_s 0]
    have he3 : extractId (strL "sub") (strL "sub-001_date-" ++ dateS) = .ok (strL "001") := by
      unfold extractId
      rw [hval3]
      rfl
    have hex : extractIds (strL "sub")
        [strL "sub-001", strL "sub-002", strL "sub-001_date-" ++ dateS] =
        .ok [strL "001", strL "002", strL "001"] := by
      have e1 : extractId (strL "sub") (strL "sub-001") = .ok (strL "001") := rfl
      have e2 : extractId (strL "sub") (strL "sub-002") = .ok (strL "002") := rfl
      simp [extractIds, e1, e2, he3, Bind.bind, Except.bind]
    have hvalidate : validateNames (strL "sub")
        [strL "sub-001", strL "sub-002", strL "sub-001_date-" ++ dateS] =
        .error (uniqueMsg (strL "sub")) := by
      unfold validateNames
      rw [hany]
      simp only [Bool.false_eq_true, if_false]
      rw [hch]
      simp only [Bind.bind, Except.bind]
      rw [hex]
      rfl
    unfold check_and_format_names
    rw [hsubst]
    simp [Bind.bind, Except.bind, hexp, hvalidate]
  · -- prefix ses
    have h3 : update_name_with_datetime dateS timeS (strL "ses-001_@DATE@") =
        strL "ses-001_date-" ++ (dateS ++ []) := rfl
    rw [List.append_nil] at h3
    have hsubst : update_names_with_datetime dateS timeS
        [strL "ses-001", strL "ses-002", strL "ses-001_@DATE@"] =
        [strL "ses-001", strL "ses-002", strL "ses-001_date-" ++ dateS] := by
      have ha : update_name_with_datetime dateS timeS (strL "ses-001") = strL "ses-001" := rfl
      have hb : update_name_with_datetime dateS timeS (strL "ses-002") = strL "ses-002" := rfl
      simp [update_names_with_datetime, ha, hb, h3]
    have hto3 : hasSubstr (strL "ses-001_date-" ++ dateS) toTagL = false := by
      have hm : hasSubstr (strL "ses-001_date-" ++ dateS) toTagL =
          hasSubstr dateS ('@' :: strL "TO@") := rfl
      rw [hm]
      exact hasSubstr_nil_of_ne dateS '@' (strL "TO@") hne_at
    have hexp : update_names_with_range_to_flag
        [strL "ses-001", strL "ses-002", strL "ses-001_date-" ++ dateS] (strL "ses") =
        .ok [strL "ses-001", strL "ses-002", strL "ses-001_date-" ++ dateS] := by
      refine range_flag_id _ _ ?_
      intro y hy
      simp only [List.mem_cons, List.not_mem_nil, or_false] at hy
      rcases hy with rfl | rfl | rfl
      · decide
      · decide
      · exact hto3
    have hsp3 : (strL "ses-001_date-" ++ dateS).contains ' ' = false := by
      have hm : (strL "ses-001_date-" ++ dateS).contains ' ' = dateS.contains ' ' := rfl
      rw [hm]
      exact contains_eq_false_of dateS ' ' hne_sp
    have hany : ([strL "ses-001", strL "ses-002", strL "ses-001_date-" ++ dateS].any
        (fun n => n.contains ' ')) = false := by
      simp only [List.any_cons, List.any_nil, hsp3]
      decide
    have hdel : delims (strL "ses-001_date-" ++ dateS) = ['-', '_', '-'] := by
      have hm : delims (strL "ses-001_date-" ++ dateS) = '-' :: '_' :: '-' :: delims dateS := rfl
      rw [hm, delims_nil_of_all_digit dateS hdd]
    have hch : check_dashes_and_underscore_alternate_correctly
        [strL "ses-001", strL "ses-002", strL "ses-001_date-" ++ dateS] = .ok () := by
      have hstep : check_dashes_and_underscore_alternate_correctly
          [strL "ses-001", strL "ses-002", strL "ses-001_date-" ++ dateS] =
          check_dashes_and_underscore_alternate_correctly [strL "ses-001_date-" ++ dateS] := rfl
      rw [hstep]
      simp only [check_dashes_and_underscore_alternate_correctly]
      rw [hdel]
      rfl
    have hval3 : get_value_from_key_regexp (strL "ses-001_date-" ++ dateS) (strL "ses") =
        [strL "001"] := by
      have hm : get_value_from_key_regexp (strL "ses-001_date-" ++ dateS) (strL "ses") =
          strL "001" :: get_value_from_key_regexpAux ('s' :: strL "es") 0 dateS := rfl
      rw [hm, scanAux_nil_of_ne 's' (strL "es") dateS hne_s 0]
    have he3 : extractId (strL "ses") (strL "ses-001_date-" ++ dateS) = .ok (strL "001") := by
      unfold extractId
      rw [hval3]
      rfl
    have hex : extractIds (strL "ses")
        [strL "ses-001", strL "ses-002", strL "ses-001_date-" ++ dateS] =
        .ok [strL "001", strL "002", strL "001"] := by
      have e1 : extractId (strL "ses") (strL "ses-001") = .ok (strL "001") := rfl
      have e2 : extractId (strL "ses") (strL "ses-002") = .ok (strL "002") := rfl
      simp [extractIds, e1, e2, he3, Bind.bind, Except.bind]
    have hvalidate : validateNames (strL "ses")
        [strL "ses-001", strL "ses-002", strL "ses-001_date-" ++ dateS] =
        .error (uniqueMsg (strL "ses")) := by
      unfold validateNames
      rw [hany]
      simp only [Bool.false_eq_true, if_false]
      rw [hch]
      simp only [Bind.bind, Except.bind]
      rw [hex]
      rfl
    unfold check_and_format_names
    rw [hsubst]
    simp [Bind.bind, Except.bind, hexp, hvalidate]

/-- C5 witness: the concrete clock date 20240101. -/
theorem c5_witness :
    check_and_format_names (strL "20240101") (strL "123456")
      [strL "sub-001", strL "sub-002", strL "sub-001_@DATE@"] (strL "sub") =
      .error (uniqueMsg (strL "sub")) ∧
    check_and_format_names (strL "20240101") (strL "123456")
      [strL "ses-001", strL "ses-002", strL "ses-001_@DATE@"] (strL "ses") =
      .error (uniqueMsg (strL "ses")) :=
  c5_theorem (strL "20240101") (strL "123456") (by decide)
/-- C9 counterexample: the batch `["sub-1@TO@3_a@TO@b"]` validates
successfully (the `@TO@` inside the carried suffix survives into the
output), but re-applying `check_and_format_names` to that output raises
a range-syntax error instead of returning the output unchanged, so
validation is not idempotent as claimed. -/
theorem c9_counterexample :
    check_and_format_names (strL "20240101") (strL "123456")
      [strL "sub-1@TO@3_a@TO@b"] (strL "sub") =
      .ok [strL "sub-1_a@TO@b", strL "sub-2_a@TO@b", strL "sub-3_a@TO@b"] ∧
    check_and_format_names (strL "20240101") (strL "123456")
      [strL "sub-1_a@TO@b", strL "sub-2_a@TO@b", strL "sub-3_a@TO@b"] (strL "sub") =
      .error (rangeErrMsg (strL "sub") (strL "sub-1_a@TO@b")) ∧
    (Except.error (rangeErrMsg (strL "sub") (strL "sub-1_a@TO@b")) :
        Except (List Char) (List (List Char))) ≠
      .ok [strL "sub-1_a@TO@b", strL "sub-2_a@TO@b", strL "sub-3_a@TO@b"] :=
  ⟨rfl, rfl, fun h => Except.noConfusion h⟩

/-- C9 (amended): `check_and_format_names` is idempotent on every batch
whose successful output contains no remaining tag marker: if the first
application succeeds with output `ys` and no name of `ys` contains
`@DATETIME@`, `@DATE@`, `@TIME@` or `@TO@`, then applying
`check_and_format_names` to `ys` returns `ys` again. -/
theorem c9_amended_theorem (dateS timeS : List Char) (xs ys : List (List Char))
    (pfx : List Char)
    (h1 : check_and_format_names dateS timeS xs pfx = .ok ys)
    (h2 : ∀ y ∈ ys, hasSubstr y datetimeTagL = false ∧ hasSubstr y dateTagL = false ∧
      hasSubstr y timeTagL = false ∧ hasSubstr y toTagL = false) :
    check_and_format_names dateS timeS ys pfx = .ok ys := by
  unfold check_and_format_names at h1 ⊢
  dsimp only at h1 ⊢
  cases hr : update_names_with_range_to_flag (update_names_with_datetime dateS timeS xs) pfx with
  | error e =>
    rw [hr] at h1
    simp [Bind.bind, Except.bind] at h1
  | ok n2 =>
    rw [hr] at h1
    simp only [Bind.bind, Except.bind] at h1
    cases hv : validateNames pfx n2 with
    | error e =>
      rw [hv] at h1
      simp at h1
    | ok u =>
      rw [hv] at h1
      simp at h1
      subst h1
      rw [update_names_dt_id dateS timeS n2
        (fun y hy => ⟨(h2 y hy).1, (h2 y hy).2.1, (h2 y hy).2.2.1⟩)]
      rw [range_flag_id n2 pfx (fun y hy => (h2 y hy).2.2.2)]
      simp [Bind.bind, Except.bind, hv]

/-- C9 witness: the amended idempotence applied to the concrete
already-valid batch `["sub-001"]`. -/
theorem c9_amended_witness :
    check_and_format_names (strL "20240101") (strL "123456")
      [strL "sub-001"] (strL "sub") = .ok [strL "sub-001"] :=
  c9_amended_theorem (strL "20240101") (strL "123456") [strL "sub-001"] [strL "sub-001"]
    (strL "sub") rfl (by decide)
